import Mathlib

/-!
# Verification of the PDF outline extractor (`process_pdfs.py`)

A shallow embedding of the heuristic outline-extraction pipeline:
text normalization (`clean_text`), heading classification (`is_heading`),
level assignment (`determine_heading_level`), title resolution
(`extract_title`) and the orchestrator (`extract_outline`).

Modelling conventions:
* Python strings are Lean `String`s (lists of Unicode scalar values);
  Python floats are modelled as exact rationals `ℚ`.
* The Unicode property functions used by the source
  (`unicodedata.category`, `unicodedata.east_asian_width`, the whitespace
  set shared by `str.strip`/`\s`, `str.lower`, `str.isupper`) are modelled
  by explicit code-point tables covering the code points relevant to the
  repository's inputs (ASCII, Latin, and the principal CJK/Indic ranges).
* `unicodedata.normalize("NFC", -)` is modelled as the identity embedding:
  the character model treats code points as atomic, so canonical
  composition is a no-op on it (NFC itself is idempotent).
* Operations that can raise in Python (document opening, page indexing,
  division) return `Option`/`Except`; the `try/except` of
  `extract_outline` is the `Except`-handler in `extract_outline_run`.
-/

set_option maxRecDepth 16384

namespace PDFOutline

/-! ## Character tables -/

/-- The whitespace set shared by Python's `str.strip()` and the regex
class `\s` on `str`: ASCII whitespace plus the Unicode space
characters. -/
def isSpace (c : Char) : Bool :=
  let n := c.toNat
  (0x09 ≤ n && n ≤ 0x0D) || n = 0x20 || (0x1C ≤ n && n ≤ 0x1F) ||
  n = 0x85 || n = 0xA0 || n = 0x1680 || (0x2000 ≤ n && n ≤ 0x200A) ||
  n = 0x2028 || n = 0x2029 || n = 0x202F || n = 0x205F || n = 0x3000

/-- `unicodedata.category(ch)[0] == 'C'`: the "Other" general-category
group (Cc control, Cf format, Cs surrogate, Co private use).  The table
lists the `Cc` ranges and the principal `Cf`/`Cs`/`Co` code points. -/
def isControlCat (c : Char) : Bool :=
  let n := c.toNat
  n ≤ 0x1F || (0x7F ≤ n && n ≤ 0x9F) ||                -- Cc
  n = 0xAD ||                                           -- soft hyphen (Cf)
  (0x600 ≤ n && n ≤ 0x605) || n = 0x61C || n = 0x6DD || n = 0x70F ||
  (0x200B ≤ n && n ≤ 0x200F) || (0x202A ≤ n && n ≤ 0x202E) ||
  (0x2060 ≤ n && n ≤ 0x2064) || (0x2066 ≤ n && n ≤ 0x206F) ||
  n = 0xFEFF || (0xFFF9 ≤ n && n ≤ 0xFFFB) ||           -- Cf
  (0xE000 ≤ n && n ≤ 0xF8FF)                            -- Co

/-- `unicodedata.east_asian_width(c) in ('W', 'F')`: the principal
Wide/Fullwidth ranges of the East Asian Width property. -/
def eaWide (c : Char) : Bool :=
  let n := c.toNat
  (0x1100 ≤ n && n ≤ 0x115F) || (0x2E80 ≤ n && n ≤ 0x303E) ||
  (0x3041 ≤ n && n ≤ 0x33FF) || (0x3400 ≤ n && n ≤ 0x4DBF) ||
  (0x4E00 ≤ n && n ≤ 0x9FFF) || (0xA000 ≤ n && n ≤ 0xA4CF) ||
  (0xAC00 ≤ n && n ≤ 0xD7A3) || (0xF900 ≤ n && n ≤ 0xFAFF) ||
  (0xFE30 ≤ n && n ≤ 0xFE4F) || (0xFF01 ≤ n && n ≤ 0xFF60) ||
  (0xFFE0 ≤ n && n ≤ 0xFFE6) ||
  (0x20000 ≤ n && n ≤ 0x2FFFD) || (0x30000 ≤ n && n ≤ 0x3FFFD)

/-- The trailing-punctuation class `[,:;.\-\–\—。、।،؛]` of `clean_text`. -/
def isTrailPunct (c : Char) : Bool :=
  c = ',' || c = ':' || c = ';' || c = '.' || c = '-' || c = '–' ||
  c = '—' || c = '。' || c = '、' || c = '।' || c = '،' || c = '؛'

/-- The noise-symbol class `[~@#$%^&*_+=\\|<>/]` of `is_heading`. -/
def noiseChar (c : Char) : Bool :=
  c = '~' || c = '@' || c = '#' || c = '$' || c = '%' || c = '^' ||
  c = '&' || c = '*' || c = '_' || c = '+' || c = '=' || c = '\\' ||
  c = '|' || c = '<' || c = '>' || c = '/'

/-- The sentence-final punctuation class `[.。।?？!！]` of `is_heading`. -/
def isEndPunct (c : Char) : Bool :=
  c = '.' || c = '。' || c = '।' || c = '?' || c = '？' || c = '!' || c = '！'

/-- ASCII uppercase letters (the cased code points relevant to the
repository's Latin heuristics; `str.isupper`/`str[0].isupper`). -/
def isUpperCh (c : Char) : Bool := 'A' ≤ c && c ≤ 'Z'

/-- ASCII lowercase letters. -/
def isLowerCh (c : Char) : Bool := 'a' ≤ c && c ≤ 'z'

/-- A cased character in the model. -/
def isCased (c : Char) : Bool := isUpperCh c || isLowerCh c

/-- `c.isalpha() and unicodedata.name(c, '').startswith('LATIN')`:
Latin letters (ASCII plus the Latin-1 and Latin Extended letter ranges). -/
def isLatinLetter (c : Char) : Bool :=
  let n := c.toNat
  isUpperCh c || isLowerCh c ||
  (0xC0 ≤ n && n ≤ 0xFF && n ≠ 0xD7 && n ≠ 0xF7) ||
  (0x100 ≤ n && n ≤ 0x24F)

/-- `str.lower()` restricted to the model's cased characters (ASCII). -/
def lowerCh (c : Char) : Char :=
  if isUpperCh c then Char.ofNat (c.toNat + 32) else c

/-- Lowercasing a string (`text.lower()`). -/
def pyLower (s : String) : String := String.mk (s.data.map lowerCh)

/-! ## String utilities -/

/-- The script-aware effective length: wide/fullwidth characters count
as 2, all others as 1
(`sum(2 if unicodedata.east_asian_width(c) in ('W','F') else 1 for c in text)`). -/
def effLen (s : String) : Nat :=
  (s.data.map (fun c => if eaWide c then 2 else 1)).sum

/-- `str.strip()` on a character list: drop leading and trailing
whitespace. -/
def pyStripList (cs : List Char) : List Char :=
  ((cs.dropWhile isSpace).reverse.dropWhile isSpace).reverse

/-- `str.strip()`. -/
def pyStrip (s : String) : String := String.mk (pyStripList s.data)

/-- Auxiliary state machine for whitespace collapsing: the flag records
whether the previous character was whitespace (already emitted as a
single ASCII space). -/
def collapseWsAux : Bool → List Char → List Char
  | _, [] => []
  | prevSpace, c :: rest =>
    if isSpace c then
      if prevSpace then collapseWsAux true rest
      else ' ' :: collapseWsAux true rest
    else c :: collapseWsAux false rest

/-- `re.sub(r'\s+', ' ', text)`: collapse every whitespace run to a
single ASCII space. -/
def collapseWs (cs : List Char) : List Char := collapseWsAux false cs

/-- Test whether two adjacent characters both satisfy `p` (a run of
length ≥ 2 of `p`-characters exists iff some adjacent pair does). -/
def hasAdjPair (p : Char → Bool) : List Char → Bool
  | a :: b :: rest => (p a && p b) || hasAdjPair p (b :: rest)
  | _ => false

/-- Substring containment (`re.search` of a literal alternative /
Python's `in` operator). -/
def containsSub (needle : List Char) : List Char → Bool
  | [] => needle.isEmpty
  | c :: rest => needle.isPrefixOf (c :: rest) || containsSub needle rest

/-- Substring containment on strings. -/
def containsSubStr (needle hay : String) : Bool :=
  containsSub needle.data hay.data

/-- Accumulator-based whitespace splitting. -/
def splitWsAux (cur : List Char) : List Char → List (List Char)
  | [] => if cur.isEmpty then [] else [cur.reverse]
  | c :: rest =>
    if isSpace c then
      if cur.isEmpty then splitWsAux [] rest
      else cur.reverse :: splitWsAux [] rest
    else splitWsAux (c :: cur) rest

/-- `str.split()`: split on whitespace runs, discarding empty pieces. -/
def pySplit (s : String) : List String :=
  (splitWsAux [] s.data).map String.mk

/-- `str.isupper()`: at least one cased character and no lowercase
cased character. -/
def pyIsUpper (s : String) : Bool :=
  s.data.any isCased && s.data.all (fun c => !isCased c || isUpperCh c)

/-- `w and w[0].isupper()`: the first character is an uppercase letter. -/
def firstUpper (w : String) : Bool :=
  match w.data with
  | c :: _ => isUpperCh c
  | [] => false

/-- Guarded rational division: Python raises `ZeroDivisionError` on a
zero denominator. -/
def ratDiv (a b : ℚ) : Option ℚ := if b = 0 then none else some (a / b)

/-! ## Regular-expression models

Each anchored pattern of the source is implemented as a function on the
character list.  `\d` is modelled by the ASCII digits (the digits
occurring in the repository's patterns and inputs). -/

/-- `\d+` at the head: require at least one digit, consume the run,
return the remainder. -/
def dropDigits1 : List Char → Option (List Char)
  | c :: rest => if c.isDigit then some (rest.dropWhile Char.isDigit) else none
  | [] => none

/-- `(\.\d+)*`: greedily consume dot-plus-digit-run groups.  Greedy
consumption is equivalent to the backtracking semantics here, because
the group is consumed only when a digit follows the dot. -/
def dotDigitsLoop : List Char → List Char
  | '.' :: c :: rest =>
    if c.isDigit then dotDigitsLoop (rest.dropWhile Char.isDigit)
    else '.' :: c :: rest
  | cs => cs
  termination_by cs => cs.length
  decreasing_by
    simp only [List.length_cons]
    exact Nat.lt_succ_of_lt
      (Nat.lt_succ_of_le (List.dropWhile_sublist Char.isDigit).length_le)

/-- `re.match(r'^\d+(\.\d+)*\.?\s+', text)` (the numbered-heading
pattern of `is_heading`). -/
def matchNumberedGeneral (s : String) : Bool :=
  match dropDigits1 s.data with
  | none => false
  | some rest =>
    let rest := dotDigitsLoop rest
    let rest := match rest with
      | '.' :: r => r
      | r => r
    match rest with
    | c :: _ => isSpace c
    | [] => false

/-- `re.match(r'^\d+\.\s+', text)` (one-level numbering). -/
def matchDotSpace (s : String) : Bool :=
  match dropDigits1 s.data with
  | some ('.' :: c :: _) => isSpace c
  | _ => false

/-- `re.match(r'^\d+\.\d+', text)` (two-level numbering). -/
def matchTwoLevel (s : String) : Bool :=
  match dropDigits1 s.data with
  | some ('.' :: c :: _) => c.isDigit
  | _ => false

/-- `re.match(r'^\d+\.\d+\.\d+', text)` (three-level numbering). -/
def matchThreeLevel (s : String) : Bool :=
  match dropDigits1 s.data with
  | some ('.' :: rest) =>
    match dropDigits1 rest with
    | some ('.' :: c :: _) => c.isDigit
    | _ => false
  | _ => false

/-- `re.search(r'[.。।?？!！]\s*$', text)`: the text ends in
sentence-final punctuation followed only by whitespace. -/
def endsSentencePunct (s : String) : Bool :=
  match s.data.reverse.dropWhile isSpace with
  | c :: _ => isEndPunct c
  | [] => false

/-- `re.search(r'[~@#$%^&*_+=\\|<>/]{2,}', text)`. -/
def hasNoiseRun (s : String) : Bool := hasAdjPair noiseChar s.data

/-- The attribution-phrase rejections of `is_heading`: English phrases
searched in the lowercased text, Japanese and Hindi phrases searched in
the raw text. -/
def hasAttribution (s : String) : Bool :=
  let lo := pyLower s
  containsSubStr "written by" lo || containsSubStr "authored by" lo ||
  containsSubStr "prepared by" lo || containsSubStr "compiled by" lo ||
  containsSubStr "edited by" lo ||
  containsSubStr "著者" s || containsSubStr "作成者" s || containsSubStr "編集者" s ||
  containsSubStr "द्वारा लिखित" s || containsSubStr "द्वारा तैयार" s ||
  containsSubStr "द्वारा संकलित" s

/-- After a keyword prefix: `\s*\d+` (optional whitespace, then at
least one digit). -/
def spacesThenDigit (cs : List Char) : Bool :=
  match cs.dropWhile isSpace with
  | c :: _ => c.isDigit
  | [] => false

/-- Try each keyword as a prefix of `cs`; on success check `\s*\d+`
after it. -/
def keywordNumber (keys : List String) (cs : List Char) : Bool :=
  keys.any (fun k =>
    k.data.isPrefixOf cs && spacesThenDigit (cs.drop k.data.length))

/-- `re.search(r'^(chapter|section|part|章|節|भाग|अध्याय|खंड)\s*\d+', text,
re.IGNORECASE)` (the chapter/section acceptance of `is_heading`; the
leading `^` makes `search` equivalent to `match`, and `IGNORECASE` is
realized by matching the lowercased text). -/
def chapterSearchIH (s : String) : Bool :=
  keywordNumber ["chapter", "section", "part", "章", "節", "भाग", "अध्याय", "खंड"]
    (pyLower s).data

/-- `re.match(r'^(chapter|section|章|節|अध्याय|खंड)\s*\d+', text,
re.IGNORECASE)` (the chapter/section override of
`determine_heading_level`). -/
def chapterMatchDHL (s : String) : Bool :=
  keywordNumber ["chapter", "section", "章", "節", "अध्याय", "खंड"]
    (pyLower s).data

/-- The fixed multilingual list of structural section names matched
(fully, on the lowercased text) by `determine_heading_level`. -/
def tocList : List String :=
  ["table of contents", "index", "appendix", "references", "bibliography",
   "glossary", "abstract", "目次", "索引", "附録", "参考文献", "用語集", "概要",
   "विषय-सूची", "अनुक्रमणिका", "परिशिष्ट", "संदर्भ", "शब्दावली", "सारांश"]

/-- `re.match(r'^(table of contents|...)$', text.lower())`. -/
def tocMatch (s : String) : Bool := tocList.contains (pyLower s)

/-- `re.match(r'^[\u2460-\u2473\u3251-\u32bf\u2776-\u277f]', text)`:
the text starts with a circled number / special bullet. -/
def circledStart (s : String) : Bool :=
  match s.data with
  | c :: _ =>
    let n := c.toNat
    (0x2460 ≤ n && n ≤ 0x2473) || (0x3251 ≤ n && n ≤ 0x32BF) ||
    (0x2776 ≤ n && n ≤ 0x277F)
  | [] => false

/-! ## Text Normalizer (`clean_text`) -/

/-- Ideographic space to ASCII space
(`text.replace('\u3000', ' ')`). -/
def toSp3000 (c : Char) : Char := if c = '\u3000' then ' ' else c

/-- The character-list pipeline of `clean_text`, in source order:
NFC (identity in the model), control-character removal, whitespace
collapsing, strip, trailing-punctuation trim, ideographic-space
replacement, replacement-character removal. -/
def cleanList (cs : List Char) : List Char :=
  let cs := cs.filter (fun c => !isControlCat c)
  let cs := collapseWs cs
  let cs := pyStripList cs
  let cs := (cs.reverse.dropWhile isTrailPunct).reverse
  let cs := cs.map toSp3000
  cs.filter (fun c => c != '\uFFFD')

/-- `clean_text(text)`: the Text Normalizer.  Empty (falsy) input
yields the empty string; the byte-coercion branch is the identity on
text input. -/
def clean_text (s : String) : String :=
  if s = "" then "" else String.mk (cleanList s.data)

/-- The first character, if any, is not whitespace. -/
def headNotSpace (s : String) : Bool :=
  match s.data with
  | [] => true
  | c :: _ => !isSpace c

/-- The last character, if any, is not whitespace. -/
def lastNotSpace (s : String) : Bool :=
  match s.data.getLast? with
  | none => true
  | some c => !isSpace c

/-- The last character, if any, is not strippable trailing
punctuation. -/
def lastNotPunct (s : String) : Bool :=
  match s.data.getLast? with
  | none => true
  | some c => !isTrailPunct c

/-- No two adjacent whitespace characters. -/
def noDoubleSpace (s : String) : Bool := !hasAdjPair isSpace s.data

/-! ## Heading Classifier (`is_heading`) -/

/-- `is_heading(text, font_size, is_bold, avg_font_size)`.  The result
is `Option Bool`: `none` models a raised exception (never actually
reached, see the totality theorem); `some b` the returned Boolean.
The rejection checks, acceptance checks and their order follow the
source. -/
def is_heading (text : String) (font_size : ℚ) (is_bold : Bool)
    (avg_font_size : ℚ) : Option Bool :=
  if text = "" ∨ text.length < 3 then some false
  else if 200 < effLen text then some false
  else if hasNoiseRun text then some false
  else if hasAttribution text then some false
  else if endsSentencePunct text ∧ 100 < effLen text ∧
      matchNumberedGeneral text = false then some false
  else if matchNumberedGeneral text then some true
  else if chapterSearchIH text then some true
  else if avg_font_size * (6/5) < font_size then some true
  else if is_bold ∧ avg_font_size ≤ font_size then some true
  else if text.data.any isLatinLetter then
    -- the source binds `words = text.split()`; inlined here
    if (pySplit text).length ≤ 6 then
      match ratDiv ((pySplit text).countP firstUpper : ℚ)
          ((max 1 (pySplit text).length : ℕ) : ℚ) with
      | none => none
      | some frac =>
        if (1/2 : ℚ) < frac then some true
        else if pyIsUpper text ∧ text.length < 50 then some true
        else some false
    else if pyIsUpper text ∧ text.length < 50 then some true
    else some false
  else if (pySplit text).length ≤ 10 ∧ avg_font_size ≤ font_size then some true
  else some false

/-! ## Level Assigner (`determine_heading_level`) -/

/-- Descending order on rationals, used for
`sorted(font_sizes, reverse=True)`. -/
def rge (a b : ℚ) : Prop := b ≤ a

instance : DecidableRel rge := fun a b => inferInstanceAs (Decidable (b ≤ a))

/-- `determine_heading_level(text, font_size, is_bold, font_sizes)`.
`none` models a raised `IndexError` (never reached, see the totality
theorem).  The branch order is exactly the source's `if`/`elif` chain;
in particular the `^\d+\.\d+` check precedes the `^\d+\.\d+\.\d+`
check. -/
def determine_heading_level (text : String) (font_size : ℚ) (is_bold : Bool)
    (font_sizes : List ℚ) : Option String :=
  if font_sizes.isEmpty then
    if is_bold ∧ 14 ≤ font_size then some "H1"
    else if is_bold ∨ 12 ≤ font_size then some "H2"
    else some "H3"
  else
    -- the source binds `sorted_sizes = sorted(font_sizes, reverse=True)`;
    -- inlined here as `List.insertionSort rge font_sizes`
    if tocMatch text then some "H1"
    else if chapterMatchDHL text then some "H1"
    else if matchDotSpace text then some "H1"
    else if matchTwoLevel text then some "H2"
    else if matchThreeLevel text then some "H3"
    else if circledStart text then some "H2"
    else if 3 ≤ (List.insertionSort rge font_sizes).length then
      match (List.insertionSort rge font_sizes).get? 0,
        (List.insertionSort rge font_sizes).get?
          ((List.insertionSort rge font_sizes).length / 2) with
      | some s0, some smid =>
        if s0 * (9/10) ≤ font_size then some "H1"
        else if smid * (9/10) ≤ font_size then some "H2"
        else some "H3"
      | _, _ => none
    else
      match (List.insertionSort rge font_sizes).get? 0 with
      | some s0 =>
        if s0 * (9/10) ≤ font_size then some "H1"
        else if is_bold then some "H2" else some "H3"
      | none => none

/-! ## Data model: the text-extraction collaborator's output -/

/-- A text span as delivered by `page.get_text("dict")`: text, font
size, flags bitmask (bit 2 = bold) and font name. -/
structure Span where
  text : String
  size : ℚ
  flags : Nat
  font : String
deriving DecidableEq

/-- A line of the extraction dictionary; `spans? = none` models a line
dictionary without a `"spans"` key. -/
structure PLine where
  spans? : Option (List Span)
deriving DecidableEq

/-- A block of the extraction dictionary; `lines? = none` models a
block without a `"lines"` key. -/
structure Block where
  lines? : Option (List PLine)
deriving DecidableEq

/-- A page: the `"blocks"` list of its text dictionary. -/
structure Page where
  blocks : List Block
deriving DecidableEq

/-- An opened document: its pages and the optional metadata title
(`doc.metadata.get("title")`; `none` covers a missing or `None`
entry). -/
structure PDFDoc where
  pages : List Page
  metadataTitle : Option String
deriving DecidableEq

/-- The spans of a page in iteration order, skipping blocks without
`"lines"` and lines without `"spans"` (the `continue` branches). -/
def pageSpans (p : Page) : List Span :=
  (p.blocks.map (fun b =>
    match b.lines? with
    | none => []
    | some ls =>
      (ls.map (fun l =>
        match l.spans? with
        | none => []
        | some ss => ss)).flatten)).flatten

/-- The bold flag of a span: bit 2 of the flags bitmask, forced true
when the font name contains "bold", "heavy", "black" or "strong"
(lowercased). -/
def spanBold (sp : Span) : Bool :=
  (Nat.land sp.flags 2 ≠ 0) ||
  containsSubStr "bold" (pyLower sp.font) ||
  containsSubStr "heavy" (pyLower sp.font) ||
  containsSubStr "black" (pyLower sp.font) ||
  containsSubStr "strong" (pyLower sp.font)

/-- A span/line/heading record as accumulated by `extract_outline`:
text, font size, bold flag, 1-indexed page. -/
structure MLine where
  text : String
  font_size : ℚ
  is_bold : Bool
  page : Nat
deriving DecidableEq

/-- An entry of the output outline. -/
structure OutlineEntry where
  text : String
  level : String
  page : Nat
deriving DecidableEq

/-- The extraction result `{title, outline}`. -/
structure ExtractionResult where
  title : String
  outline : List OutlineEntry
deriving DecidableEq

/-- The degraded fail-soft result `{"title": "Error", "outline": []}`. -/
def errorResult : ExtractionResult := ⟨"Error", []⟩

/-! ## Orchestrator helpers -/

/-- First pass of `extract_outline`: one heading candidate per span
with non-empty stripped text, tagged with the 1-indexed page number. -/
def buildCandidates (pages : List Page) : List MLine :=
  (pages.enum.map (fun pp =>
    (pageSpans pp.2).filterMap (fun sp =>
      let t := pyStrip sp.text
      if t = "" then none
      else some ⟨t, sp.size, spanBold sp, pp.1 + 1⟩))).flatten

/-- The `font_stats` list: the font size of every span with non-empty
stripped text, appended in the same guarded iteration that records the
candidate, hence the sizes of the candidates in order. -/
def fontStats (pages : List Page) : List ℚ :=
  (buildCandidates pages).map (fun m => m.font_size)

/-- One step of the line-merging loop: extend the accumulator line
when the page matches and the font sizes differ by less than 1,
otherwise flush it. -/
def flushMerge (acc : List MLine × MLine) (c : MLine) : List MLine × MLine :=
  if acc.2.text = "" then (acc.1, c)
  else if c.page = acc.2.page ∧ |c.font_size - acc.2.font_size| < 1 then
    (acc.1, { acc.2 with
                text := acc.2.text ++ " " ++ c.text,
                is_bold := acc.2.is_bold || c.is_bold })
  else (acc.1 ++ [acc.2], c)

/-- The Line Merger: greedy single-pass folding of candidates into
lines, flushing the final accumulator when it carries text. -/
def mergeLines (cands : List MLine) : List MLine :=
  let st := cands.foldl flushMerge ([], ⟨"", 0, false, 0⟩)
  if st.2.text = "" then st.1 else st.1 ++ [st.2]

/-- Lift an `Option` into `Except`, modelling a raised exception. -/
def liftOpt {α : Type} (msg : String) : Option α → Except String α
  | some a => Except.ok a
  | none => Except.error msg

/-- Second pass: normalize each merged line and keep those the Heading
Classifier accepts, with the normalized text. -/
def selectHeadings (avg : ℚ) : List MLine → Except String (List MLine)
  | [] => Except.ok []
  | l :: rest =>
    let t := clean_text l.text
    if t = "" then selectHeadings avg rest
    else
      match is_heading t l.font_size l.is_bold avg with
      | none => Except.error "is_heading"
      | some true => do
        let tail ← selectHeadings avg rest
        pure (⟨t, l.font_size, l.is_bold, l.page⟩ :: tail)
      | some false => selectHeadings avg rest

/-- Level assignment over the accepted headings
(`determine_heading_level` per heading, against all headings' font
sizes). -/
def buildOutline (sizes : List ℚ) : List MLine → Except String (List OutlineEntry)
  | [] => Except.ok []
  | h :: rest =>
    match determine_heading_level h.text h.font_size h.is_bold sizes with
    | none => Except.error "determine_heading_level"
    | some lvl => do
      let tail ← buildOutline sizes rest
      pure (⟨h.text, lvl, h.page⟩ :: tail)

/-! ## Title Resolver (`extract_title`) -/

/-- The metadata-title source: present, truthy, and longer than 3
characters after trimming. -/
def metaTitle? : Option String → Option String
  | some t => if t ≠ "" ∧ 3 < (pyStrip t).length then some (pyStrip t) else none
  | none => none

/-- The sort key order `(page, -font_size)` used by
`sorted(headings, key=lambda h: (h["page"], -h["font_size"]))`. -/
def hle (a b : MLine) : Prop :=
  a.page < b.page ∨ (a.page = b.page ∧ b.font_size ≤ a.font_size)

instance : DecidableRel hle := fun a b =>
  inferInstanceAs
    (Decidable (a.page < b.page ∨ (a.page = b.page ∧ b.font_size ≤ a.font_size)))

instance : IsTotal MLine hle where
  total a b := by
    rcases Nat.lt_trichotomy a.page b.page with h | h | h
    · exact Or.inl (Or.inl h)
    · rcases le_total b.font_size a.font_size with hf | hf
      · exact Or.inl (Or.inr ⟨h, hf⟩)
      · exact Or.inr (Or.inr ⟨h.symm, hf⟩)
    · exact Or.inr (Or.inl h)

instance : IsTrans MLine hle where
  trans a b c hab hbc := by
    rcases hab with h1 | ⟨h1, h1f⟩
    · rcases hbc with h2 | ⟨h2, _⟩
      · exact Or.inl (h1.trans h2)
      · exact Or.inl (h2 ▸ h1)
    · rcases hbc with h2 | ⟨h2, h2f⟩
      · exact Or.inl (h1 ▸ h2)
      · exact Or.inr ⟨h1.trans h2, h2f.trans h1f⟩

/-- `sorted(headings, key=lambda h: (h["page"], -h["font_size"]))` —
a stable sort by earliest page, then largest font. -/
def sortHeadings (hs : List MLine) : List MLine := List.insertionSort hle hs

/-- The largest-font span scan of the first page: the stripped text of
the largest span whose effective length exceeds 3. -/
def largestSpanText (spans : List Span) : String :=
  (spans.foldl (fun (acc : String × ℚ) sp =>
    let t := pyStrip sp.text
    if acc.2 < sp.size ∧ 3 < effLen t then (t, sp.size) else acc) ("", 0)).1

/-- The vertical-title heuristic: among the first five non-empty
stripped fragments, if at least three have length strictly between 1
and 10, join the first three with spaces. -/
def verticalTitle (spans : List Span) : String :=
  let text_blocks := spans.filterMap (fun sp =>
    let t := pyStrip sp.text
    if 0 < t.length then some t else none)
  if 3 ≤ text_blocks.length then
    let short_blocks := (text_blocks.take 5).filter
      (fun b => 1 < b.length ∧ b.length < 10)
    if 3 ≤ short_blocks.length then " ".intercalate (short_blocks.take 3)
    else ""
  else ""

/-- The first-page fallback of `extract_title`: `doc[0]` raises
(`none`) on a document without pages; otherwise scan the first page's
spans, then try the vertical-title heuristic, then the fixed
placeholder. -/
def extractTitleFallback (doc : PDFDoc) : Option String := do
  let page0 ← doc.pages.get? 0
  let spans := pageSpans page0
  let largest := largestSpanText spans
  let largest := if largest = "" then verticalTitle spans else largest
  pure (if largest = "" then "Untitled Document" else largest)

/-- `extract_title(doc, headings)`: metadata title, else the first
heading of the `(page, -font_size)` order when it is short enough and
not a numbered heading, else the first-page fallback.  `none` models a
raised exception. -/
def extract_title (doc : PDFDoc) (headings : List MLine) : Option String :=
  match metaTitle? doc.metadataTitle with
  | some t => some t
  | none =>
    match (sortHeadings headings).head? with
    | some first =>
      if effLen first.text < 150 ∧ matchDotSpace first.text = false then
        some first.text
      else extractTitleFallback doc
    | none => extractTitleFallback doc

/-! ## Outline Extractor (`extract_outline`) -/

/-- The body of `extract_outline`'s `try` block after a successful
`fitz.open`: collect, average, merge, classify, resolve the title,
assign levels.  An `Except.error` models an exception raised
mid-extraction. -/
def coreAfterOpen (doc : PDFDoc) (max_pages : Nat) :
    Except String ExtractionResult := do
  let num_pages := min doc.pages.length max_pages
  let procPages := doc.pages.take num_pages
  let font_stats := fontStats procPages
  let cands := buildCandidates procPages
  let avg ← liftOpt "avg_font_size"
    (ratDiv font_stats.sum ((max 1 font_stats.length : ℕ) : ℚ))
  let ls := mergeLines cands
  let headings ← selectHeadings avg ls
  let sizes := headings.map (fun h => h.font_size)
  let title ← liftOpt "extract_title" (extract_title doc headings)
  let outline ← buildOutline sizes headings
  pure ⟨title, outline⟩

/-- `extract_outline(pdf_path)` with the resource state made explicit.
The input is the outcome of `fitz.open`; the second component records
the document handle's fate: `none` when no handle was ever opened,
`some true` when `doc.close()` ran before the exit (the success path,
source line 480), `some false` when the handle was left open (the
`except` handler returns without closing). -/
def extract_outline_run (inp : Except String PDFDoc) :
    ExtractionResult × Option Bool :=
  match inp with
  | Except.error _ => (errorResult, none)
  | Except.ok doc =>
    match coreAfterOpen doc 100 with
    | Except.ok res => (res, some true)
    | Except.error _ => (errorResult, some false)

/-- `extract_outline(pdf_path)`: the returned dictionary. -/
def extract_outline (inp : Except String PDFDoc) : ExtractionResult :=
  (extract_outline_run inp).1

/-! ## Concrete documents used as test inputs -/

/-- A document with zero pages and no metadata title. -/
def emptyDoc : PDFDoc := ⟨[], none⟩

/-- A document whose metadata title contains a tab character. -/
def tabTitleDoc : PDFDoc := ⟨[], some "Ab\tcd"⟩

/-- A one-page document with a single prominent span. -/
def introDoc : PDFDoc :=
  ⟨[⟨[⟨some [⟨some [⟨"Introduction", 20, 0, "Arial"⟩]⟩]⟩]⟩], none⟩

/-- A one-page document with one block that carries no lines. -/
def blankPageDoc : PDFDoc := ⟨[⟨[⟨none⟩]⟩], none⟩

/-- A one-page document with a single chapter-marker span. -/
def chapterDoc : PDFDoc :=
  ⟨[⟨[⟨some [⟨some [⟨"Chapter 1 Introduction", 20, 0, "Arial"⟩]⟩]⟩]⟩], none⟩

/-! ## Claims -/

/-- **C1** (code_bug evaluation).  Numbering-depth levels actually
assigned by `determine_heading_level` for the three texts of the claim,
for every font size, bold flag and non-empty font-size list: `"1. A"`
gets H1 and `"1.1 B"` gets H2 as the claim states, but `"1.1.1 C"` gets
H2, not H3 — the `^\d+\.\d+` check precedes the `^\d+\.\d+\.\d+` check
in the source's `elif` chain, so the H3 branch (which the source's own
comment labels "Sub-subsection (e.g., 1.1.1 History)") is unreachable. -/
theorem claim1_numbering_depth (fs : ℚ) (b : Bool) (sizes : List ℚ)
    (h : sizes ≠ []) :
    determine_heading_level "1. A" fs b sizes = some "H1" ∧
    determine_heading_level "1.1 B" fs b sizes = some "H2" ∧
    determine_heading_level "1.1.1 C" fs b sizes = some "H2" := by
  match sizes, h with
  | a :: t, _ =>
    have h1 : tocMatch "1. A" = false := by decide
    have h2 : chapterMatchDHL "1. A" = false := by decide
    have h3 : matchDotSpace "1. A" = true := by decide
    have h4 : tocMatch "1.1 B" = false := by decide
    have h5 : chapterMatchDHL "1.1 B" = false := by decide
    have h6 : matchDotSpace "1.1 B" = false := by decide
    have h7 : matchTwoLevel "1.1 B" = true := by decide
    have h8 : tocMatch "1.1.1 C" = false := by decide
    have h9 : chapterMatchDHL "1.1.1 C" = false := by decide
    have h10 : matchDotSpace "1.1.1 C" = false := by decide
    have h11 : matchTwoLevel "1.1.1 C" = true := by decide
    refine ⟨?_, ?_, ?_⟩ <;>
      simp [determine_heading_level, h1, h2, h3, h4, h5, h6, h7, h8, h9,
        h10, h11]

/-- Witness for C1 at a concrete input. -/
theorem claim1_numbering_depth_witness :
    determine_heading_level "1. A" 12 false [12] = some "H1" ∧
    determine_heading_level "1.1 B" 12 false [12] = some "H2" ∧
    determine_heading_level "1.1.1 C" 12 false [12] = some "H2" :=
  claim1_numbering_depth 12 false [12] (by decide)

/-- **C2** (confirmed).  Fail-soft contract: whenever opening the
document fails or the extraction body raises, `extract_outline`
returns exactly `{title: "Error", outline: []}` instead of propagating
the failure. -/
theorem claim2_fail_soft (inp : Except String PDFDoc) (e : String)
    (h : inp = Except.error e ∨
      ∃ d, inp = Except.ok d ∧ coreAfterOpen d 100 = Except.error e) :
    extract_outline inp = errorResult := by
  rcases h with h | ⟨d, hd, hc⟩
  · subst h; rfl
  · subst hd
    simp [extract_outline, extract_outline_run, hc]

/-- Witness for C2: a failed document open. -/
theorem claim2_fail_soft_witness :
    extract_outline (Except.error "cannot open") = errorResult :=
  claim2_fail_soft _ "cannot open" (Or.inl rfl)

/-- **C3** (counterexample).  A document with zero pages does *not*
yield `{"title": "Untitled Document", "outline": []}`: the title
fallback's first-page access (`doc[0]`) raises, the handler catches
it, and the result is the degraded `{"title": "Error", "outline": []}`. -/
theorem claim3_counterexample :
    extract_outline (Except.ok emptyDoc) = errorResult ∧
    extract_outline (Except.ok emptyDoc) ≠ ⟨"Untitled Document", []⟩ := by
  decide

/-- Monadic bind on a successful `Except` value reduces to the
continuation. -/
theorem exceptBind_ok {ε α β : Type} (a : α) (f : α → Except ε β) :
    (Except.ok a >>= f) = f a := rfl

/-- Functorial map on a successful `Except` value. -/
theorem exceptMap_ok {ε α β : Type} (g : α → β) (a : α) :
    (g <$> (Except.ok a : Except ε α)) = Except.ok (g a) := rfl

/-- A document all of whose spans strip to the empty string yields no
heading candidates. -/
theorem buildCandidates_eq_nil (pages : List Page)
    (h : ∀ p ∈ pages, ∀ sp ∈ pageSpans p, pyStrip sp.text = "") :
    buildCandidates pages = [] := by
  unfold buildCandidates
  rw [List.flatten_eq_nil_iff]
  intro l hl
  rcases List.mem_map.mp hl with ⟨pp, hpp, rfl⟩
  rw [List.filterMap_eq_nil_iff]
  intro sp hsp
  have hp2 : pp.2 ∈ pages :=
    List.getElem?_mem (List.mem_enum_iff_getElem?.mp hpp)
  rw [if_pos (h pp.2 hp2 sp hsp)]

/-- The largest-span scan finds nothing among spans that strip to the
empty string. -/
theorem largestSpanText_empty (spans : List Span)
    (h : ∀ sp ∈ spans, pyStrip sp.text = "") :
    largestSpanText spans = "" := by
  unfold largestSpanText
  suffices hfold : ∀ (l : List Span), (∀ sp ∈ l, pyStrip sp.text = "") →
      l.foldl (fun (acc : String × ℚ) (sp : Span) =>
        let t := pyStrip sp.text
        if acc.2 < sp.size ∧ 3 < effLen t then (t, sp.size) else acc) ("", 0)
      = ("", 0) by
    rw [hfold spans h]
  intro l hl
  induction l with
  | nil => rfl
  | cons sp rest ih =>
    rw [List.foldl_cons]
    have hstep : (if ((("", 0) : String × ℚ).2 < sp.size ∧
        3 < effLen (pyStrip sp.text)) then (pyStrip sp.text, sp.size)
        else (("", 0) : String × ℚ)) = ("", 0) := by
      rw [hl sp (List.mem_cons_self sp rest)]
      exact if_neg (fun hc => by
        have h3 := hc.2
        rw [show effLen "" = 0 from rfl] at h3
        omega)
    dsimp only at hstep ⊢
    rw [hstep]
    exact ih (fun s hs => hl s (List.mem_cons_of_mem sp hs))

/-- The vertical-title heuristic finds nothing among spans that strip
to the empty string. -/
theorem verticalTitle_empty (spans : List Span)
    (h : ∀ sp ∈ spans, pyStrip sp.text = "") :
    verticalTitle spans = "" := by
  unfold verticalTitle
  have hblocks : spans.filterMap (fun sp =>
      let t := pyStrip sp.text
      if 0 < t.length then some t else none) = [] := by
    rw [List.filterMap_eq_nil_iff]
    intro sp hsp
    dsimp only
    rw [h sp hsp]
    rfl
  rw [hblocks]
  rfl

/-- **C3** (amended).  On a document with at least one page, no usable
metadata title, and no span whose text survives trimming, the
extractor returns `{"title": "Untitled Document", "outline": []}`.
(A zero-page document instead yields the degraded error result, see
the counterexample.) -/
theorem claim3_amended (doc : PDFDoc)
    (hpages : doc.pages ≠ [])
    (hmeta : metaTitle? doc.metadataTitle = none)
    (hspans : ∀ p ∈ doc.pages, ∀ sp ∈ pageSpans p, pyStrip sp.text = "") :
    extract_outline (Except.ok doc) = ⟨"Untitled Document", []⟩ := by
  have hcand : buildCandidates (doc.pages.take (min doc.pages.length 100)) = [] :=
    buildCandidates_eq_nil _ (fun p hp sp hsp =>
      hspans p (List.take_subset _ _ hp) sp hsp)
  obtain ⟨p0, rest, hp0⟩ : ∃ p0 rest, doc.pages = p0 :: rest := by
    cases hd : doc.pages with
    | nil => exact absurd hd hpages
    | cons a t => exact ⟨a, t, rfl⟩
  have hfall : extractTitleFallback doc = some "Untitled Document" := by
    unfold extractTitleFallback
    rw [hp0]
    have hsp0 : ∀ sp ∈ pageSpans p0, pyStrip sp.text = "" :=
      hspans p0 (by rw [hp0]; exact List.mem_cons_self _ _)
    simp only [List.get?_cons_zero, Option.bind_eq_bind, Option.some_bind,
      largestSpanText_empty _ hsp0, verticalTitle_empty _ hsp0]
    rfl
  have htitle : extract_title doc [] = some "Untitled Document" := by
    unfold extract_title
    rw [hmeta]
    dsimp only
    rw [show (sortHeadings []).head? = none from rfl]
    exact hfall
  unfold extract_outline extract_outline_run coreAfterOpen
  dsimp only
  rw [hcand]
  unfold fontStats
  rw [hcand]
  simp only [List.map_nil, List.sum_nil, List.length_nil, ratDiv, liftOpt,
    mergeLines, List.foldl_nil, selectHeadings]
  norm_num
  simp only [exceptBind_ok, htitle, List.map_nil,
    show buildOutline [] [] = Except.ok [] from rfl, exceptMap_ok]

/-- Witness for the amended C3: a one-page document whose only block
carries no lines. -/
theorem claim3_amended_witness :
    blankPageDoc.pages ≠ [] ∧
    metaTitle? blankPageDoc.metadataTitle = none ∧
    extract_outline (Except.ok blankPageDoc) = ⟨"Untitled Document", []⟩ :=
  ⟨by decide, rfl,
   claim3_amended blankPageDoc (by decide) rfl (by decide)⟩

/-- Characters of the collapsed list that are whitespace are the ASCII
space. -/
theorem collapseWsAux_space (cs : List Char) : ∀ (b : Bool),
    ∀ c ∈ collapseWsAux b cs, isSpace c = true → c = ' ' := by
  induction cs with
  | nil => intro b c hc; exact absurd hc (List.not_mem_nil c)
  | cons d rest ih =>
    intro b c hc hsp
    unfold collapseWsAux at hc
    by_cases hd : isSpace d
    · rw [if_pos hd] at hc
      cases b with
      | true => exact ih true c hc hsp
      | false =>
        rcases List.mem_cons.mp hc with rfl | hc2
        · rfl
        · exact ih true c hc2 hsp
    · rw [if_neg hd] at hc
      rcases List.mem_cons.mp hc with rfl | hc2
      · exact absurd hsp hd
      · exact ih false c hc2 hsp

/-- Characters emitted by the collapse are the ASCII space or input
characters. -/
theorem collapseWsAux_mem (cs : List Char) : ∀ (b : Bool),
    ∀ c ∈ collapseWsAux b cs, c = ' ' ∨ c ∈ cs := by
  induction cs with
  | nil => intro b c hc; exact absurd hc (List.not_mem_nil c)
  | cons d rest ih =>
    intro b c hc
    unfold collapseWsAux at hc
    by_cases hd : isSpace d
    · rw [if_pos hd] at hc
      cases b with
      | true =>
        rcases ih true c hc with h | h
        · exact Or.inl h
        · exact Or.inr (List.mem_cons_of_mem d h)
      | false =>
        rcases List.mem_cons.mp hc with rfl | hc2
        · exact Or.inl rfl
        · rcases ih true c hc2 with h | h
          · exact Or.inl h
          · exact Or.inr (List.mem_cons_of_mem d h)
    · rw [if_neg hd] at hc
      rcases List.mem_cons.mp hc with rfl | hc2
      · exact Or.inr (List.mem_cons_self c rest)
      · rcases ih false c hc2 with h | h
        · exact Or.inl h
        · exact Or.inr (List.mem_cons_of_mem d h)

/-- The strip operation only removes characters. -/
theorem pyStripList_subset (cs : List Char) : pyStripList cs ⊆ cs := by
  intro c hc
  unfold pyStripList at hc
  have h1 := List.mem_reverse.mp hc
  have h2 := List.dropWhile_subset isSpace h1
  have h3 := List.mem_reverse.mp h2
  exact List.dropWhile_subset isSpace h3

/-- The trailing-punctuation trim only removes characters. -/
theorem stripPunct_subset (cs : List Char) :
    (cs.reverse.dropWhile isTrailPunct).reverse ⊆ cs := by
  intro c hc
  have h1 := List.mem_reverse.mp hc
  have h2 := List.dropWhile_subset isTrailPunct h1
  exact List.mem_reverse.mp h2

/-- Every whitespace character of a cleaned list is the ASCII space. -/
theorem cleanList_space (cs : List Char) :
    ∀ c ∈ cleanList cs, isSpace c = true → c = ' ' := by
  intro c hc hsp
  unfold cleanList at hc
  have hc5 := (List.mem_filter.mp hc).1
  rcases List.mem_map.mp hc5 with ⟨a, ha4, hac⟩
  have ha3 := stripPunct_subset _ ha4
  have ha2 := pyStripList_subset _ ha3
  unfold toSp3000 at hac
  by_cases h3 : a = '　'
  · rw [if_pos h3] at hac; exact hac.symm
  · rw [if_neg h3] at hac
    subst hac
    exact collapseWsAux_space _ false a ha2 hsp

/-- A cleaned list contains no control characters. -/
theorem cleanList_control (cs : List Char) :
    ∀ c ∈ cleanList cs, isControlCat c = false := by
  intro c hc
  unfold cleanList at hc
  have hc5 := (List.mem_filter.mp hc).1
  rcases List.mem_map.mp hc5 with ⟨a, ha4, hac⟩
  have ha3 := stripPunct_subset _ ha4
  have ha2 := pyStripList_subset _ ha3
  unfold toSp3000 at hac
  by_cases h3 : a = '　'
  · rw [if_pos h3] at hac; rw [← hac]; rfl
  · rw [if_neg h3] at hac
    subst hac
    rcases collapseWsAux_mem _ false a ha2 with rfl | ha1
    · rfl
    · have := (List.mem_filter.mp ha1).2
      rcases hcc : isControlCat a with _ | _
      · rfl
      · rw [hcc] at this; exact absurd this (by decide)

/-- A cleaned list contains no replacement character. -/
theorem cleanList_noRep (cs : List Char) :
    ∀ c ∈ cleanList cs, c ≠ '�' := by
  intro c hc
  unfold cleanList at hc
  have := (List.mem_filter.mp hc).2
  exact bne_iff_ne.mp this

/-- `collapseWsAux true` equals `collapseWsAux false` when the list
does not start with whitespace. -/
theorem collapseWsAux_true_eq_false (cs : List Char)
    (h : ∀ c, cs.head? = some c → isSpace c = false) :
    collapseWsAux true cs = collapseWsAux false cs := by
  cases cs with
  | nil => rfl
  | cons d rest =>
    have hd : isSpace d = false := h d rfl
    unfold collapseWsAux
    rw [if_neg (by rw [hd]; exact Bool.noConfusion),
      if_neg (by rw [hd]; exact Bool.noConfusion)]

/-- A tail of an adjacent-pair-free list is adjacent-pair-free. -/
theorem hasAdjPair_tail (p : Char → Bool) (d : Char) (rest : List Char)
    (h : hasAdjPair p (d :: rest) = false) : hasAdjPair p rest = false := by
  cases rest with
  | nil => rfl
  | cons e r =>
    unfold hasAdjPair at h
    exact (Bool.or_eq_false_iff.mp h).2

/-- The collapse is the identity on a list whose whitespace is already
single ASCII spaces. -/
theorem collapseWsAux_eq_self (cs : List Char)
    (h1 : ∀ c ∈ cs, isSpace c = true → c = ' ')
    (h2 : hasAdjPair isSpace cs = false) :
    collapseWsAux false cs = cs := by
  induction cs with
  | nil => rfl
  | cons d rest ih =>
    have htail := hasAdjPair_tail isSpace d rest h2
    have ih2 := ih (fun c hc hsp => h1 c (List.mem_cons_of_mem d hc) hsp) htail
    by_cases hd : isSpace d = true
    · have hd' : d = ' ' := h1 d (List.mem_cons_self d rest) hd
      have hhead : ∀ c, rest.head? = some c → isSpace c = false := by
        intro c hc
        cases rest with
        | nil => exact Option.noConfusion hc
        | cons e r =>
          cases Option.some.inj hc
          unfold hasAdjPair at h2
          have := (Bool.or_eq_false_iff.mp h2).1
          rcases hsp : isSpace c with _ | _
          · rfl
          · rw [hd, hsp] at this; exact absurd this (by decide)
      unfold collapseWsAux
      rw [if_pos hd, collapseWsAux_true_eq_false rest hhead, ih2, hd']
      rfl
    · unfold collapseWsAux
      rw [if_neg hd, ih2]

/-- `dropWhile` is the identity when the head does not satisfy the
predicate. -/
theorem dropWhile_eq_self_of_head (p : Char → Bool) (cs : List Char)
    (h : ∀ c, cs.head? = some c → p c = false) : cs.dropWhile p = cs := by
  cases cs with
  | nil => rfl
  | cons d rest =>
    exact List.dropWhile_cons_of_neg (by rw [h d rfl]; exact Bool.noConfusion)

/-- The map replacing the ideographic space is the identity when none
is present. -/
theorem map_toSp3000_eq_self (cs : List Char)
    (h : ∀ c ∈ cs, c ≠ '　') : cs.map toSp3000 = cs := by
  induction cs with
  | nil => rfl
  | cons d rest ih =>
    rw [List.map_cons, ih (fun c hc => h c (List.mem_cons_of_mem d hc))]
    unfold toSp3000
    rw [if_neg (h d (List.mem_cons_self d rest))]

/-- `cleanList` is the identity on its own output whenever that output
has no leading/trailing space, no trailing strippable punctuation and
no adjacent double space. -/
theorem cleanList_idem (cs : List Char)
    (hh : ∀ c, (cleanList cs).head? = some c → isSpace c = false)
    (hl : ∀ c, (cleanList cs).getLast? = some c →
      isSpace c = false ∧ isTrailPunct c = false)
    (hadj : hasAdjPair isSpace (cleanList cs) = false) :
    cleanList (cleanList cs) = cleanList cs := by
  have hsp := cleanList_space cs
  have hctl := cleanList_control cs
  have hrep := cleanList_noRep cs
  have h3000 : ∀ c ∈ cleanList cs, c ≠ '　' := by
    intro c hc he
    have : c = ' ' := hsp c hc (by rw [he]; rfl)
    rw [he] at this
    exact absurd this (by decide)
  set y := cleanList cs with hy
  show cleanList y = y
  have s1 : y.filter (fun c => !isControlCat c) = y :=
    List.filter_eq_self.mpr (fun c hc => by rw [hctl c hc]; rfl)
  have s2 : collapseWs y = y := collapseWsAux_eq_self y hsp hadj
  have s3 : pyStripList y = y := by
    unfold pyStripList
    rw [dropWhile_eq_self_of_head isSpace y hh,
      dropWhile_eq_self_of_head isSpace y.reverse
        (fun c hc => (hl c (by rw [List.getLast?_eq_head?_reverse]; exact hc)).1),
      List.reverse_reverse]
  have s4 : (y.reverse.dropWhile isTrailPunct).reverse = y := by
    rw [dropWhile_eq_self_of_head isTrailPunct y.reverse
        (fun c hc => (hl c (by rw [List.getLast?_eq_head?_reverse]; exact hc)).2),
      List.reverse_reverse]
  have s5 : y.map toSp3000 = y := map_toSp3000_eq_self y h3000
  have s6 : y.filter (fun c => c != '�') = y :=
    List.filter_eq_self.mpr (fun c hc => bne_iff_ne.mpr (hrep c hc))
  conv_lhs => rw [cleanList]
  rw [s1, s2, s3, s4, s5, s6]

/-- **C4** (counterexample).  `clean_text` is not idempotent: on
`"a ."` the trailing-punctuation trim removes the final dot but leaves
the space before it, so a second application strips further. -/
theorem claim4_counterexample :
    clean_text (clean_text "a .") ≠ clean_text "a ." := by decide

/-- A negated Boolean that is true is false. -/
theorem bnot_eq_true {b : Bool} (h : (!b) = true) : b = false := by
  cases b
  · rfl
  · exact absurd h (by decide)

/-- **C4** (amended).  `clean_text` is idempotent exactly on the
inputs whose cleaned form is already fully normalized: whenever
`clean_text s` has no leading or trailing whitespace, does not end in
a strippable punctuation character, and contains no two adjacent
whitespace characters, a second application changes nothing.  (In
general idempotence fails: the trailing-punctuation trim can expose a
trailing space, and the replacement-character removal can expose
leading or doubled whitespace.) -/
theorem claim4_amended (s : String)
    (h1 : headNotSpace (clean_text s) = true)
    (h2 : lastNotSpace (clean_text s) = true)
    (h3 : lastNotPunct (clean_text s) = true)
    (h4 : noDoubleSpace (clean_text s) = true) :
    clean_text (clean_text s) = clean_text s := by
  by_cases hs : s = ""
  · subst hs; rfl
  · have hcs : clean_text s = String.mk (cleanList s.data) := by
      rw [clean_text, if_neg hs]
    rw [hcs] at h1 h2 h3 h4 ⊢
    by_cases hy0 : String.mk (cleanList s.data) = ""
    · rw [clean_text, if_pos hy0]
      exact hy0.symm
    · rw [clean_text, if_neg hy0]
      have hdata : (String.mk (cleanList s.data)).data = cleanList s.data := rfl
      rw [hdata]
      have hh : ∀ c, (cleanList s.data).head? = some c → isSpace c = false := by
        intro c hc
        unfold headNotSpace at h1
        rw [hdata] at h1
        cases hd : cleanList s.data with
        | nil => rw [hd] at hc; exact Option.noConfusion hc
        | cons a t =>
          rw [hd] at hc h1
          cases Option.some.inj hc
          exact bnot_eq_true h1
      have hl : ∀ c, (cleanList s.data).getLast? = some c →
          isSpace c = false ∧ isTrailPunct c = false := by
        intro c hc
        unfold lastNotSpace at h2
        unfold lastNotPunct at h3
        rw [hdata, hc] at h2 h3
        exact ⟨bnot_eq_true h2, bnot_eq_true h3⟩
      have hadj : hasAdjPair isSpace (cleanList s.data) = false := by
        unfold noDoubleSpace at h4
        rw [hdata] at h4
        exact bnot_eq_true h4
      exact congrArg String.mk (cleanList_idem s.data hh hl hadj)

/-- Witness for the amended C4. -/
theorem claim4_amended_witness :
    headNotSpace (clean_text "Hello World") = true ∧
    lastNotSpace (clean_text "Hello World") = true ∧
    lastNotPunct (clean_text "Hello World") = true ∧
    noDoubleSpace (clean_text "Hello World") = true ∧
    clean_text (clean_text "Hello World") = clean_text "Hello World" :=
  ⟨by decide, by decide, by decide, by decide,
   claim4_amended "Hello World" (by decide) (by decide) (by decide) (by decide)⟩

/-- **C5** (counterexample).  The minimum-length rejection is *not*
script-aware: the two-character fullwidth string `"日本"` has effective
length 4 (not less than 3), yet `is_heading` rejects it, because the
short-text check uses the raw character count `len(text) < 3`. -/
theorem claim5_counterexample :
    ¬ effLen "日本" < 3 ∧ is_heading "日本" 20 true 10 = some false := by
  decide

/-- **C5** (amended).  The minimum-length rejection uses the raw
character count: every text of fewer than 3 characters is rejected,
regardless of script or formatting. -/
theorem claim5_amended (text : String) (fs : ℚ) (b : Bool) (avg : ℚ)
    (h : text.length < 3) :
    is_heading text fs b avg = some false := by
  unfold is_heading
  rw [if_pos (Or.inr h)]

/-- Witness for the amended C5. -/
theorem claim5_amended_witness :
    ("ab" : String).length < 3 ∧ is_heading "ab" 20 true 10 = some false :=
  ⟨by decide, claim5_amended "ab" 20 true 10 (by decide)⟩

/-- Monadic bind on a failed `Except` value short-circuits. -/
theorem exceptBind_error {ε α β : Type} (e : ε) (f : α → Except ε β) :
    ((Except.error e : Except ε α) >>= f) = Except.error e := rfl

/-- Inversion of a successful bind: the first action succeeded and the
continuation succeeded on its value. -/
theorem exceptBind_ok_inv {ε α β : Type} {m : Except ε α}
    {f : α → Except ε β} {b : β} (h : (m >>= f) = Except.ok b) :
    ∃ a, m = Except.ok a ∧ f a = Except.ok b := by
  cases m with
  | error e => rw [exceptBind_error] at h; exact Except.noConfusion h
  | ok a => rw [exceptBind_ok] at h; exact ⟨a, rfl, h⟩

/-- Inversion of a successful map. -/
theorem exceptMap_ok_inv {ε α β : Type} {g : α → β} {m : Except ε α}
    {b : β} (h : (g <$> m) = Except.ok b) :
    ∃ a, m = Except.ok a ∧ g a = b := by
  cases m with
  | error e => exact Except.noConfusion h
  | ok a => rw [exceptMap_ok] at h; exact ⟨a, rfl, Except.ok.inj h⟩

/-- **C7** (counterexample).  Not every string stored in the
extraction result is in normalized form: a metadata title containing a
tab character is returned merely trimmed, never passing through
`clean_text` (which would remove the tab, a control character), so the
stored title is not a fixed point of the Normalizer. -/
theorem claim7_counterexample :
    clean_text ((extract_outline (Except.ok tabTitleDoc)).title) ≠
      (extract_outline (Except.ok tabTitleDoc)).title := by
  decide

/-- Every heading record kept by the second pass carries
normalized text. -/
theorem selectHeadings_mem (avg : ℚ) (ls : List MLine) (hs : List MLine)
    (h : selectHeadings avg ls = Except.ok hs) :
    ∀ m ∈ hs, ∃ s, m.text = clean_text s := by
  induction ls generalizing hs with
  | nil =>
    rw [selectHeadings] at h
    cases Except.ok.inj h
    intro m hm
    exact absurd hm (List.not_mem_nil m)
  | cons l rest ih =>
    rw [selectHeadings] at h
    by_cases ht : clean_text l.text = ""
    · rw [if_pos ht] at h
      exact ih hs h
    · rw [if_neg ht] at h
      cases hih : is_heading (clean_text l.text) l.font_size l.is_bold avg with
      | none => rw [hih] at h; exact Except.noConfusion h
      | some b =>
        rw [hih] at h
        cases b with
        | false => exact ih hs h
        | true =>
          obtain ⟨tail, htail, h2⟩ := exceptBind_ok_inv h
          cases Except.ok.inj h2
          intro m hm
          rcases List.mem_cons.mp hm with rfl | hm2
          · exact ⟨l.text, rfl⟩
          · exact ih tail htail m hm2

/-- Every outline entry's text is the text of one of the headings it
was built from. -/
theorem buildOutline_mem (sizes : List ℚ) (hs : List MLine)
    (out : List OutlineEntry) (h : buildOutline sizes hs = Except.ok out) :
    ∀ e ∈ out, ∃ m ∈ hs, e.text = m.text := by
  induction hs generalizing out with
  | nil =>
    rw [buildOutline] at h
    cases Except.ok.inj h
    intro e he
    exact absurd he (List.not_mem_nil e)
  | cons m rest ih =>
    rw [buildOutline] at h
    cases hlvl : determine_heading_level m.text m.font_size m.is_bold sizes with
    | none => rw [hlvl] at h; exact Except.noConfusion h
    | some lvl =>
      rw [hlvl] at h
      obtain ⟨tail, htail, h2⟩ := exceptBind_ok_inv h
      cases Except.ok.inj h2
      intro e he
      rcases List.mem_cons.mp he with rfl | he2
      · exact ⟨m, List.mem_cons_self m rest, rfl⟩
      · obtain ⟨m2, hm2, he3⟩ := ih tail htail e he2
        exact ⟨m2, List.mem_cons_of_mem m hm2, he3⟩

/-- **C7** (amended).  Every *outline entry's* text in the extraction
result is the Normalizer's output on its merged line, so raw line text
never reaches the outline.  (The *title*, by contrast, can bypass
normalization — see the counterexample: the metadata path and the
first-page span fallback return merely trimmed text.) -/
theorem claim7_amended (inp : Except String PDFDoc) :
    ∀ e ∈ (extract_outline inp).outline, ∃ s, e.text = clean_text s := by
  intro e he
  cases inp with
  | error err =>
    exact absurd he (List.not_mem_nil e)
  | ok doc =>
    cases hcore : coreAfterOpen doc 100 with
    | error err =>
      have hres : extract_outline (Except.ok doc) = errorResult := by
        unfold extract_outline extract_outline_run
        dsimp only
        rw [hcore]
      rw [hres] at he
      exact absurd he (List.not_mem_nil e)
    | ok res =>
      have hres : extract_outline (Except.ok doc) = res := by
        unfold extract_outline extract_outline_run
        dsimp only
        rw [hcore]
      rw [hres] at he
      unfold coreAfterOpen at hcore
      dsimp only at hcore
      obtain ⟨avg, havg, hcore⟩ := exceptBind_ok_inv hcore
      try dsimp only at hcore
      obtain ⟨headings, hsel, hcore⟩ := exceptBind_ok_inv hcore
      try dsimp only at hcore
      obtain ⟨title, htit, hcore⟩ := exceptBind_ok_inv hcore
      try dsimp only at hcore
      obtain ⟨outline, hout, hmk⟩ := exceptMap_ok_inv hcore
      rw [← hmk] at he
      try dsimp only at he
      obtain ⟨m, hm, hem⟩ := buildOutline_mem _ _ _ hout e he
      obtain ⟨s, hs⟩ := selectHeadings_mem _ _ _ hsel m hm
      exact ⟨s, hem.trans hs⟩

/-- Witness for the amended C7: a concrete document with a non-empty
outline. -/
theorem claim7_amended_witness :
    ∃ s, (⟨"Chapter 1 Introduction", "H1", 1⟩ : OutlineEntry).text
      = clean_text s :=
  claim7_amended (Except.ok chapterDoc)
    ⟨"Chapter 1 Introduction", "H1", 1⟩ (by decide)

/-- **C8** (confirmed).  Script-width length cap: every text of
effective length above 200 is rejected; a string of 150 wide CJK
characters (effective length 300) is rejected, while a Latin string of
150 characters passes the length checks and (here, with a prominent
font) is accepted. -/
theorem claim8_length_cap :
    (∀ (text : String) (fs : ℚ) (b : Bool) (avg : ℚ),
      200 < effLen text → is_heading text fs b avg = some false) ∧
    is_heading (String.mk (List.replicate 150 '日')) 20 false 10 = some false ∧
    is_heading (String.mk (List.replicate 150 'a')) 20 false 10 = some true := by
  refine ⟨fun text fs b avg h => ?_, by decide, ?_⟩
  · unfold is_heading
    by_cases h0 : text = "" ∨ text.length < 3
    · rw [if_pos h0]
    · rw [if_neg h0, if_pos h]
  · unfold is_heading
    rw [if_neg (by decide), if_neg (by decide), if_neg (by decide),
      if_neg (by decide), if_neg (by decide), if_neg (by decide),
      if_neg (by decide), if_pos (show (10 : ℚ) * (6/5) < 20 by norm_num)]

/-- Witness for C8's universally quantified cap. -/
theorem claim8_length_cap_witness :
    200 < effLen (String.mk (List.replicate 101 '日')) ∧
    is_heading (String.mk (List.replicate 101 '日')) 20 false 10 = some false :=
  ⟨by decide, claim8_length_cap.1 _ 20 false 10 (by decide)⟩

/-- **C10** (confirmed).  Totality of the classifiers: `is_heading`
and `determine_heading_level` return a value on every input — the
capitalization fraction divides by `max(1, len(words))`, which is
never zero, and the quantile indexing of the sorted font sizes is
reached only with a non-empty font-size list. -/
theorem claim10_totality (text : String) (fs : ℚ) (b : Bool) (avg : ℚ)
    (sizes : List ℚ) :
    (is_heading text fs b avg).isSome = true ∧
    (determine_heading_level text fs b sizes).isSome = true := by
  constructor
  · have hd : ((max 1 (pySplit text).length : ℕ) : ℚ) ≠ 0 :=
      Nat.cast_ne_zero.mpr (by omega)
    have hq : ratDiv ((pySplit text).countP firstUpper : ℚ)
        ((max 1 (pySplit text).length : ℕ) : ℚ)
        = some (((pySplit text).countP firstUpper : ℚ) /
            ((max 1 (pySplit text).length : ℕ) : ℚ)) := by
      rw [ratDiv, if_neg hd]
    unfold is_heading
    by_cases c1 : text = "" ∨ text.length < 3
    · rw [if_pos c1]; rfl
    rw [if_neg c1]
    by_cases c2 : 200 < effLen text
    · rw [if_pos c2]; rfl
    rw [if_neg c2]
    by_cases c3 : hasNoiseRun text = true
    · rw [if_pos c3]; rfl
    rw [if_neg c3]
    by_cases c4 : hasAttribution text = true
    · rw [if_pos c4]; rfl
    rw [if_neg c4]
    by_cases c5 : endsSentencePunct text = true ∧ 100 < effLen text ∧
      matchNumberedGeneral text = false
    · rw [if_pos c5]; rfl
    rw [if_neg c5]
    by_cases c6 : matchNumberedGeneral text = true
    · rw [if_pos c6]; rfl
    rw [if_neg c6]
    by_cases c7 : chapterSearchIH text = true
    · rw [if_pos c7]; rfl
    rw [if_neg c7]
    by_cases c8 : avg * (6/5) < fs
    · rw [if_pos c8]; rfl
    rw [if_neg c8]
    by_cases c9 : b = true ∧ avg ≤ fs
    · rw [if_pos c9]; rfl
    rw [if_neg c9]
    by_cases c10 : text.data.any isLatinLetter = true
    · rw [if_pos c10]
      by_cases c11 : (pySplit text).length ≤ 6
      · rw [if_pos c11, hq]
        dsimp only
        by_cases c12 : (1/2 : ℚ) < ((pySplit text).countP firstUpper : ℚ) /
          ((max 1 (pySplit text).length : ℕ) : ℚ)
        · rw [if_pos c12]; rfl
        rw [if_neg c12]
        by_cases c13 : pyIsUpper text = true ∧ text.length < 50
        · rw [if_pos c13]; rfl
        · rw [if_neg c13]; rfl
      · rw [if_neg c11]
        by_cases c13 : pyIsUpper text = true ∧ text.length < 50
        · rw [if_pos c13]; rfl
        · rw [if_neg c13]; rfl
    · rw [if_neg c10]
      by_cases c14 : (pySplit text).length ≤ 10 ∧ avg ≤ fs
      · rw [if_pos c14]; rfl
      · rw [if_neg c14]; rfl
  · unfold determine_heading_level
    by_cases hemp : sizes.isEmpty = true
    · rw [if_pos hemp]
      by_cases d1 : b = true ∧ 14 ≤ fs
      · rw [if_pos d1]; rfl
      rw [if_neg d1]
      by_cases d2 : b = true ∨ 12 ≤ fs
      · rw [if_pos d2]; rfl
      · rw [if_neg d2]; rfl
    · rw [if_neg hemp]
      have hlen : 0 < (List.insertionSort rge sizes).length := by
        rw [List.length_insertionSort]
        cases sizes with
        | nil => exact absurd rfl hemp
        | cons a t => exact Nat.succ_pos _
      obtain ⟨v0, hv0⟩ : ∃ v, (List.insertionSort rge sizes).get? 0 = some v := by
        rcases h : (List.insertionSort rge sizes).get? 0 with _ | v
        · exact absurd (List.get?_eq_none.mp h) (by omega)
        · exact ⟨v, rfl⟩
      obtain ⟨v1, hv1⟩ : ∃ v, (List.insertionSort rge sizes).get?
          ((List.insertionSort rge sizes).length / 2) = some v := by
        rcases h : (List.insertionSort rge sizes).get?
            ((List.insertionSort rge sizes).length / 2) with _ | v
        · exact absurd (List.get?_eq_none.mp h)
            (by push_neg; exact Nat.div_lt_self hlen (by omega))
        · exact ⟨v, rfl⟩
      by_cases t1 : tocMatch text = true
      · rw [if_pos t1]; rfl
      rw [if_neg t1]
      by_cases t2 : chapterMatchDHL text = true
      · rw [if_pos t2]; rfl
      rw [if_neg t2]
      by_cases t3 : matchDotSpace text = true
      · rw [if_pos t3]; rfl
      rw [if_neg t3]
      by_cases t4 : matchTwoLevel text = true
      · rw [if_pos t4]; rfl
      rw [if_neg t4]
      by_cases t5 : matchThreeLevel text = true
      · rw [if_pos t5]; rfl
      rw [if_neg t5]
      by_cases t6 : circledStart text = true
      · rw [if_pos t6]; rfl
      rw [if_neg t6]
      by_cases t7 : 3 ≤ (List.insertionSort rge sizes).length
      · rw [if_pos t7, hv0, hv1]
        dsimp only
        by_cases u1 : v0 * (9/10) ≤ fs
        · rw [if_pos u1]; rfl
        rw [if_neg u1]
        by_cases u2 : v1 * (9/10) ≤ fs
        · rw [if_pos u2]; rfl
        · rw [if_neg u2]; rfl
      · rw [if_neg t7, hv0]
        dsimp only
        by_cases u1 : v0 * (9/10) ≤ fs
        · rw [if_pos u1]; rfl
        rw [if_neg u1]
        by_cases u2 : b = true
        · rw [if_pos u2]; rfl
        · rw [if_neg u2]; rfl

/-- **C6** (confirmed).  Title fallback ordering: (1) a present
metadata title that is longer than 3 characters after trimming is
returned (trimmed) regardless of heading content; (2) otherwise the
heading that is minimal for the `(page, -font_size)` key is returned
as title provided its effective length is under 150 and it does not
match `^\d+\.\s+`; (3) a numbered first heading falls through to the
first-page largest-span fallback. -/
theorem claim6_title_fallback :
    (∀ (doc : PDFDoc) (hs : List MLine) (t : String),
      doc.metadataTitle = some t → t ≠ "" → 3 < (pyStrip t).length →
      extract_title doc hs = some (pyStrip t)) ∧
    (∀ (doc : PDFDoc) (hs : List MLine) (first : MLine),
      metaTitle? doc.metadataTitle = none →
      (sortHeadings hs).head? = some first →
      effLen first.text < 150 → matchDotSpace first.text = false →
      extract_title doc hs = some first.text ∧ first ∈ hs ∧
        ∀ h ∈ hs, hle first h) ∧
    (∀ (doc : PDFDoc) (hs : List MLine) (first : MLine),
      metaTitle? doc.metadataTitle = none →
      (sortHeadings hs).head? = some first →
      matchDotSpace first.text = true →
      extract_title doc hs = extractTitleFallback doc) := by
  refine ⟨?_, ?_, ?_⟩
  · intro doc hs t hmt ht hl
    unfold extract_title
    rw [hmt]
    unfold metaTitle?
    dsimp only
    rw [if_pos ⟨ht, hl⟩]
  · intro doc hs first hmt hhead heff hnum
    have hmemSorted : first ∈ sortHeadings hs :=
      List.mem_of_mem_head? (by rw [hhead]; exact rfl)
    have hmem : first ∈ hs :=
      (List.perm_insertionSort hle hs).subset hmemSorted
    have hmin : ∀ h ∈ hs, hle first h := by
      intro h hh
      have hsorted : List.Sorted hle (sortHeadings hs) :=
        List.sorted_insertionSort hle hs
      have hh2 : h ∈ sortHeadings hs :=
        (List.perm_insertionSort hle hs).mem_iff.mpr hh
      cases hsort : sortHeadings hs with
      | nil => rw [hsort] at hhead; exact Option.noConfusion hhead
      | cons a rest =>
        rw [hsort] at hhead hsorted hh2
        have ha : a = first := Option.some.inj hhead
        subst ha
        rcases List.mem_cons.mp hh2 with h1 | h1
        · subst h1; exact Or.inr ⟨rfl, le_refl _⟩
        · exact List.rel_of_sorted_cons hsorted h h1
    refine ⟨?_, hmem, hmin⟩
    unfold extract_title
    rw [hmt]
    dsimp only
    rw [hhead]
    dsimp only
    rw [if_pos ⟨heff, hnum⟩]
  · intro doc hs first hmt hhead hnum
    unfold extract_title
    rw [hmt]
    dsimp only
    rw [hhead]
    dsimp only
    rw [if_neg (fun hc => by rw [hnum] at hc; exact Bool.noConfusion hc.2)]

/-- Witness for C6: each branch of the fallback chain at a concrete
input. -/
theorem claim6_title_fallback_witness :
    extract_title ⟨[], some " My Document "⟩ [] = some (pyStrip " My Document ") ∧
    (extract_title ⟨[], none⟩ [⟨"Intro", 12, false, 1⟩] = some "Intro" ∧
      (⟨"Intro", 12, false, 1⟩ : MLine) ∈ [(⟨"Intro", 12, false, 1⟩ : MLine)] ∧
      ∀ h ∈ [(⟨"Intro", 12, false, 1⟩ : MLine)], hle ⟨"Intro", 12, false, 1⟩ h) ∧
    extract_title ⟨[], none⟩ [⟨"1. Overview", 16, false, 1⟩] =
      extractTitleFallback ⟨[], none⟩ :=
  ⟨claim6_title_fallback.1 ⟨[], some " My Document "⟩ [] " My Document "
      rfl (by decide) (by decide),
   claim6_title_fallback.2.1 ⟨[], none⟩ [⟨"Intro", 12, false, 1⟩]
      ⟨"Intro", 12, false, 1⟩ rfl rfl (by decide) (by decide),
   claim6_title_fallback.2.2 ⟨[], none⟩ [⟨"1. Overview", 16, false, 1⟩]
      ⟨"1. Overview", 16, false, 1⟩ rfl rfl (by decide)⟩

/-- **C9** (code_bug evaluation).  Resource release fails on the
fail-soft path: on a document that opens successfully but raises
mid-extraction (zero pages, so the title fallback's `doc[0]` raises),
the handler returns the degraded result with the document handle still
open — the `except` branch never calls `doc.close()`. -/
theorem claim9_handle_leak :
    extract_outline_run (Except.ok emptyDoc) = (errorResult, some false) := by
  decide

end PDFOutline
